import Mathlib

/-!
Shallow embedding of the CommTest peer-to-peer coordination node
(`distributed_worker_rest.py`, `comm_node.py`).

Real time, threads and HTTP are modelled by explicit traces and oracles:
* a call of `wait_for_responses` observes a list of `(table, running)`
  snapshots, one per poll iteration while the deadline has not passed,
  and a final table read after the loop exits;
* the retry loop of `CommNode.send_message_with_retry` consumes a list of
  attempt outcomes, one per iteration in which the `running` flag was
  observed true — an exhausted list means `running` became false;
* network sends are driven by a `SendOutcome` oracle per address.
All definitions are computable and follow the Python source line by line.
-/

set_option autoImplicit false

namespace CommTest

/-- One stored entry of the correlator table: the dict appended in the
`collaboration_response` branch of `handle_message`. -/
structure StoredResponse where
  from_node : String
  data : Option String
  timestamp : Nat
  deriving DecidableEq, Repr

/-- `DistributedWorker.responses`: a dict from message id to the ordered
list of stored responses. -/
abbrev RespTable := List (String × List StoredResponse)

/-- Dict lookup `responses[message_id]` (`None` when the key is absent). -/
def lookupTable (t : RespTable) (message_id : String) : Option (List StoredResponse) :=
  match t.find? (fun e => e.1 == message_id) with
  | some e => some e.2
  | none => none

/-- `DistributedWorker.wait_for_responses(message_id, expected_count, timeout)`.
`polls` lists the `(self.responses, self.running)` observations made at the
head of each `while` iteration for which `time.time() - start_time < timeout`
still held; `finalTable` is the read of `self.responses` performed after the
loop exits (under the lock) for the final `self.responses.get(message_id, [])`. -/
def wait_for_responses (polls : List (RespTable × Bool)) (finalTable : RespTable)
    (message_id : String) (expected_count : Nat) : List StoredResponse :=
  match polls with
  | [] => (lookupTable finalTable message_id).getD []
  | (tbl, run) :: rest =>
    if run then
      match lookupTable tbl message_id with
      | some rs =>
        if expected_count ≤ rs.length then rs
        else wait_for_responses rest finalTable message_id expected_count
      | none => wait_for_responses rest finalTable message_id expected_count
    else (lookupTable finalTable message_id).getD []

/-- Outcome of one HTTP POST attempt inside `CommNode.send_message_with_retry`:
status 200, a non-200 status, or a raised exception. -/
inductive AttemptResult
  | ok
  | httpFail
  | netFail
  deriving DecidableEq, Repr

/-- The backoff computed by `comm_node.py` line 110:
`wait_time = min(2 ** min(retry_count - 1, 3), 10)`. -/
def backoff_wait (retry_count : Nat) : Nat :=
  min (2 ^ (min (retry_count - 1) 3)) 10

/-- The `retry_send` loop of `CommNode.send_message_with_retry`.
`attempts` holds the outcome of each POST made while `self.running` was
observed true; exhausting the list models `running` turning false, upon
which the loop exits returning `False`.  The second component collects the
successive `wait_time` values slept between attempts. -/
def retry_send : List AttemptResult → Nat → Bool × List Nat
  | [], _ => (false, [])
  | a :: rest, retry_count =>
    match a with
    | .ok => (true, [])
    | .httpFail =>
      let rc := retry_count + 1
      let r := retry_send rest rc
      (r.1, backoff_wait rc :: r.2)
    | .netFail =>
      let rc := retry_count + 1
      let r := retry_send rest rc
      (r.1, backoff_wait rc :: r.2)

/-- Address normalization at the head of `DistributedWorker.add_peer`. -/
def normalize_address (peer_address : String) : String :=
  if peer_address.startsWith "http" then peer_address else "http://" ++ peer_address

/-- Outcome of the liveness probe `requests.get(f"{peer_address}/status")`:
status 200, a non-200 status, or a raised exception (timeout included). -/
inductive ProbeResult
  | ok
  | badStatus
  | failed
  deriving DecidableEq, Repr

/-- `DistributedWorker.add_peer(peer_address)`: returns the new peer list and
the boolean result. The probe oracle gives the outcome of the status request
for each address. -/
def add_peer (peers : List String) (probe : String → ProbeResult)
    (peer_address : String) : List String × Bool :=
  let a := normalize_address peer_address
  if a ∈ peers then (peers, true)
  else
    match probe a with
    | .ok => (peers ++ [a], true)
    | .badStatus => (peers, false)
    | .failed => (peers, false)

/-- `DistributedWorker.remove_peer(peer_address)`: `list.remove` drops the
first occurrence, guarded by a membership test. -/
def remove_peer (peers : List String) (peer_address : String) : List String :=
  if peer_address ∈ peers then peers.erase peer_address else peers

/-- A parsed JSON body returned by a peer on a 200 reply to `/message`. -/
structure PeerResponse where
  status : String
  payload : Option String
  deriving DecidableEq, Repr

/-- Outcome of the single POST inside `DistributedWorker.send_message`:
a 200 reply with a body, a non-200 status, `requests.exceptions.Timeout`,
or any other exception. -/
inductive SendOutcome
  | ok (resp : PeerResponse)
  | badStatus
  | timeout
  | netError
  deriving DecidableEq, Repr

/-- `DistributedWorker.send_message(peer_address, ...)`: one attempt; on a
200 reply the parsed body is returned; a non-200 status or a generic
exception returns `None` leaving the peer list alone; only the dedicated
`Timeout` handler calls `self.remove_peer(peer_address)`. -/
def send_message (peers : List String) (peer_address : String)
    (outcome : SendOutcome) : List String × Option PeerResponse :=
  match outcome with
  | .ok r => (peers, some r)
  | .badStatus => (peers, none)
  | .timeout => (remove_peer peers peer_address, none)
  | .netError => (peers, none)

/-- The `for peer in self.peers[:]` loop of `broadcast_message`: iterates the
copied list, threading the live peer list through `send_message`, and
accumulates `(responses, dead_peers, live peer list after the loop)`. -/
def broadcast_pass (outcome : String → SendOutcome) :
    List String → List String → List PeerResponse × List String × List String
  | [], peers => ([], [], peers)
  | p :: rest, peers =>
    let s := send_message peers p (outcome p)
    let r := broadcast_pass outcome rest s.1
    match s.2 with
    | some resp => (resp :: r.1, r.2.1, r.2.2)
    | none => (r.1, p :: r.2.1, r.2.2)

/-- `DistributedWorker.broadcast_message(message_type, data)`: fan out to the
copy of the peer list, then `for peer in dead_peers: if peer in self.peers:
self.remove_peer(peer)`. Returns the final peer list and the collected
responses. -/
def broadcast_message (peers : List String) (outcome : String → SendOutcome) :
    List String × List PeerResponse :=
  let r := broadcast_pass outcome peers peers
  let afterRemove :=
    r.2.1.foldl (fun ps p => if p ∈ ps then remove_peer ps p else ps) r.2.2
  (afterRemove, r.1)

/-- A task dict as consumed by `process_task`: `task_id` may be absent
(defaulting to `"unknown"`), `needs_collaboration` is its truthiness. -/
structure TaskData where
  task_id : Option String
  work_time : Nat
  needs_collaboration : Bool
  deriving DecidableEq, Repr

/-- Mutable state of a `DistributedWorker` relevant to the claims. -/
structure NodeState where
  node_id : String
  peers : List String
  responses : RespTable
  taskQueue : List TaskData
  deriving DecidableEq, Repr

/-- Instrumentation of the calls `process_task` makes, in source order. -/
inductive Effect
  | broadcast (targets : List String) (message_id : String)
  | wait (message_id : String) (expected_count : Nat) (result : List StoredResponse)
  deriving DecidableEq, Repr

/-- `DistributedWorker.process_task(task_data)`. `now` is `int(time.time())`
when the message id is minted; `polls`/`finalTable` are the observations a
nested `wait_for_responses` call would make. Returns the state after the
call, the result string, and the log of broadcast/wait calls issued. -/
def process_task (st : NodeState) (outcome : String → SendOutcome) (now : Nat)
    (polls : List (RespTable × Bool)) (finalTable : RespTable)
    (task_data : TaskData) : NodeState × String × List Effect :=
  let task_id := task_data.task_id.getD "unknown"
  let result := "Task " ++ task_id ++ " completed by node " ++ st.node_id
  if task_data.needs_collaboration then
    let message_id := "collab_" ++ task_id ++ "_" ++ toString now
    let b := broadcast_message st.peers outcome
    let st1 : NodeState := { st with peers := b.1 }
    if st1.peers.isEmpty then
      (st1, result, [Effect.broadcast st.peers message_id])
    else
      let peer_responses :=
        wait_for_responses polls finalTable message_id st1.peers.length
      let result2 :=
        if peer_responses.isEmpty then
          result ++ " (no peer responses received)"
        else
          result ++ " with input from: " ++
            toString (peer_responses.map (fun r => r.data.getD "No response"))
      (st1, result2,
        [Effect.broadcast st.peers message_id,
         Effect.wait message_id st1.peers.length peer_responses])
  else (st, result, [])

/-- One iteration of `worker_loop` in which `self.running` was observed
true: either `task_queue.get` timed out (`queue.Empty`) or a task was
popped whose processing produced a result or raised. -/
inductive IterEvent
  | empty
  | task (outcome : Except String String)
  deriving Repr

/-- `DistributedWorker.worker_loop`: the list of iterations executed while
`running` held, returning the log of per-task results (`Except.error` for a
caught exception). `queue.Empty` and task exceptions both `continue`. -/
def worker_loop : List IterEvent → List (Except String String)
  | [] => []
  | .empty :: rest => worker_loop rest
  | .task out :: rest => out :: worker_loop rest

/-- Python's substring test `pat in hay` on strings. -/
def strContains (hay pat : String) : Bool :=
  hay.data.tails.any (fun t => pat.data.isPrefixOf t)

/-- The `node_shutdown` branch of `handle_message`:
`peers_to_remove = [peer for peer in worker.peers if shutting_down_node in peer]`
followed by `worker.remove_peer(peer)` for each collected entry. -/
def handle_node_shutdown (peers : List String) (shutting_down_node : String) :
    List String :=
  let peers_to_remove := peers.filter (fun peer => strContains peer shutting_down_node)
  peers_to_remove.foldl (fun ps peer => remove_peer ps peer) peers

/-- Python falsiness of an optional string field: absent or empty. -/
def isFalsy : Option String → Bool
  | none => true
  | some s => s.isEmpty

/-- The `data` payload of an inbound `/message` body, with the optional
fields the router reads (`dict.get` yields `None` when absent). -/
structure InboundData where
  message_id : Option String
  task_id : Option String
  requesting_node : Option String
  node_id : Option String
  data : Option String
  deriving DecidableEq, Repr

/-- An inbound `/message` body as read by `handle_message`. -/
structure InboundMessage where
  from_node : Option String
  msgType : Option String
  data : InboundData
  timestamp : Option Nat
  deriving DecidableEq, Repr

/-- The Flask reply: a JSON body with a `status` field and an HTTP code. -/
structure HttpResponse where
  status : String
  code : Nat
  deriving DecidableEq, Repr

/-- What a call of `handle_message` does: return a reply, or raise
(propagating as an HTTP 500 from Flask). -/
inductive HandlerResult
  | resp (r : HttpResponse)
  | raised
  deriving DecidableEq, Repr

/-- The `collaboration_response` recording: `if message_id not in
worker.responses: worker.responses[message_id] = []` then append. -/
def record_response (t : RespTable) (message_id : String) (r : StoredResponse) :
    RespTable :=
  match lookupTable t message_id with
  | some _ => t.map (fun e => if e.1 == message_id then (e.1, e.2 ++ [r]) else e)
  | none => t ++ [(message_id, [r])]

/-- `handle_message` (the `/message` route), restricted to a live worker.
`statusProbe a = none` models a failed or non-200 `/status` probe of peer
`a` inside the `collaboration_request` branch; `some nid?` models a 200
reply whose JSON carries `node_id = nid?`.  `pushOutcome` drives the nested
`send_message` push of the collaboration response. `now` is `time.time()`
used to default the timestamp. -/
def handle_message (st : NodeState) (statusProbe : String → Option (Option String))
    (pushOutcome : String → SendOutcome) (now : Nat) (msg : InboundMessage) :
    NodeState × HandlerResult :=
  let message_type := msg.msgType.getD "unknown"
  if message_type == "collaboration_request" then
    if isFalsy msg.data.message_id || isFalsy msg.data.task_id then
      (st, .resp ⟨"error", 400⟩)
    else
      let addr? := st.peers.find? (fun p =>
        match statusProbe p with
        | some nid? => nid? == msg.data.requesting_node
        | none => false)
      match addr? with
      | some a =>
        let s := send_message st.peers a (pushOutcome a)
        ({ st with peers := s.1 }, .resp ⟨"success", 200⟩)
      | none => (st, .resp ⟨"success", 200⟩)
  else if message_type == "collaboration_response" then
    if isFalsy msg.data.message_id then
      (st, .resp ⟨"received", 200⟩)
    else
      let r : StoredResponse :=
        ⟨msg.from_node.getD "unknown", msg.data.data, msg.timestamp.getD now⟩
      ({ st with responses := record_response st.responses (msg.data.message_id.getD "") r },
        .resp ⟨"received", 200⟩)
  else if message_type == "node_shutdown" then
    match msg.data.node_id with
    | none => (st, .raised)
    | some nid =>
      ({ st with peers := handle_node_shutdown st.peers nid }, .resp ⟨"acknowledged", 200⟩)
  else if message_type == "ping" then
    (st, .resp ⟨"pong", 200⟩)
  else if message_type == "custom_message" then
    (st, .resp ⟨"message_received", 200⟩)
  else
    (st, .resp ⟨"unknown_message_type", 400⟩)

/-- C1: `wait_for_responses` never fails: it returns the list accumulated
for the id at the moment it stops — the recorded list as soon as a poll
(while running) finds the count at `expected_count`, ignoring the remaining
timeout budget, and otherwise whatever the final read yields, possibly
fewer than `expected_count`, possibly empty. -/
theorem wait_for_responses_correct :
    (∀ (polls : List (RespTable × Bool)) (finalTable tbl : RespTable)
        (message_id : String) (expected_count : Nat) (rs : List StoredResponse),
        lookupTable tbl message_id = some rs → expected_count ≤ rs.length →
        wait_for_responses ((tbl, true) :: polls) finalTable message_id expected_count = rs)
    ∧ (∀ (polls : List (RespTable × Bool)) (finalTable : RespTable)
        (message_id : String) (expected_count : Nat),
        wait_for_responses polls finalTable message_id expected_count
            = (lookupTable finalTable message_id).getD []
        ∨ ∃ p ∈ polls, p.2 = true ∧
            lookupTable p.1 message_id
              = some (wait_for_responses polls finalTable message_id expected_count) ∧
            expected_count ≤
              (wait_for_responses polls finalTable message_id expected_count).length) := by
  constructor
  · intro polls finalTable tbl message_id expected_count rs hlook hlen
    simp [wait_for_responses, hlook, hlen]
  · intro polls finalTable message_id expected_count
    induction polls with
    | nil => left; rfl
    | cons p rest ih =>
      obtain ⟨tbl, run⟩ := p
      cases run with
      | false => left; simp [wait_for_responses]
      | true =>
        cases hl : lookupTable tbl message_id with
        | none =>
          have hw : wait_for_responses ((tbl, true) :: rest) finalTable message_id
                expected_count
              = wait_for_responses rest finalTable message_id expected_count := by
            simp [wait_for_responses, hl]
          rw [hw]
          rcases ih with h | ⟨q, hq, h2, h3, h4⟩
          · exact Or.inl h
          · exact Or.inr ⟨q, List.mem_cons_of_mem _ hq, h2, h3, h4⟩
        | some rs =>
          by_cases hlen : expected_count ≤ rs.length
          · have hw : wait_for_responses ((tbl, true) :: rest) finalTable message_id
                  expected_count = rs := by
              simp [wait_for_responses, hl, hlen]
            right
            exact ⟨(tbl, true), List.mem_cons_self _ _, rfl, by rw [hw]; exact hl,
              by rw [hw]; exact hlen⟩
          · have hw : wait_for_responses ((tbl, true) :: rest) finalTable message_id
                  expected_count
                = wait_for_responses rest finalTable message_id expected_count := by
              simp [wait_for_responses, hl, hlen]
            rw [hw]
            rcases ih with h | ⟨q, hq, h2, h3, h4⟩
            · exact Or.inl h
            · exact Or.inr ⟨q, List.mem_cons_of_mem _ hq, h2, h3, h4⟩

/-- Witness for C1: with one response recorded for `"m"` and
`expected_count = 1`, the call returns that list at the first poll. -/
theorem wait_for_responses_correct_witness :
    wait_for_responses [([("m", [⟨"n2", some "d", 0⟩])], true)] [] "m" 1
      = [⟨"n2", some "d", 0⟩] :=
  wait_for_responses_correct.1 [] [] [("m", [⟨"n2", some "d", 0⟩])] "m" 1
    [⟨"n2", some "d", 0⟩] (by decide) (by decide)

/-- C2 counterexample: the code computes
`min(2 ** min(retry_count - 1, 3), 10)`, so the fifth consecutive failure
waits `8`, not `min(2^4, 10) = 10`; the five-failure wait sequence is
`1, 2, 4, 8, 8`, not `1, 2, 4, 8, 10`. -/
theorem retry_backoff_counterexample :
    (retry_send (List.replicate 5 AttemptResult.netFail) 0).2 = [1, 2, 4, 8, 8] ∧
    (retry_send (List.replicate 5 AttemptResult.netFail) 0).2 ≠ [1, 2, 4, 8, 10] ∧
    backoff_wait 5 ≠ min (2 ^ (5 - 1)) 10 := by decide

/-- C2 amended: the backoff before retry `k` equals
`min(2^(min(k-1,3)), 10) = 2^(min(k-1,3))` (the `10` ceiling never binds,
all waits are at most `8`); for `m` consecutive failures the waits are
`1, 2, 4, 8, 8, 8, ...`, and the loop stops re-attempting (returning
`False`) once the running flag is observed cleared. -/
theorem retry_backoff_amended :
    (∀ (m retry_count : Nat),
      (retry_send (List.replicate m AttemptResult.netFail) retry_count).1 = false ∧
      (retry_send (List.replicate m AttemptResult.netFail) retry_count).2
        = (List.range m).map (fun i => min (2 ^ (min (retry_count + i) 3)) 10))
    ∧ (∀ k : Nat, backoff_wait k = 2 ^ (min (k - 1) 3) ∧ backoff_wait k ≤ 8) := by
  constructor
  · intro m
    induction m with
    | zero => intro rc; exact ⟨rfl, rfl⟩
    | succ m ih =>
      intro rc
      refine ⟨by simp [List.replicate_succ, retry_send, (ih (rc + 1)).1], ?_⟩
      rw [List.replicate_succ]
      show (backoff_wait (rc + 1) :: (retry_send (List.replicate m .netFail) (rc + 1)).2)
          = _
      rw [(ih (rc + 1)).2, List.range_succ_eq_map, List.map_cons, List.map_map]
      have htail :
          List.map ((fun i => min (2 ^ (min (rc + i) 3)) 10) ∘ Nat.succ) (List.range m)
            = List.map (fun i => min (2 ^ (min (rc + 1 + i) 3)) 10) (List.range m) := by
        apply List.map_congr_left
        intro i _
        have h : rc + (i + 1) = rc + 1 + i := by omega
        simp [Function.comp, Nat.succ_eq_add_one, h]
      rw [htail]
      simp [backoff_wait]
  · intro k
    have h8 : 2 ^ (min (k - 1) 3) ≤ 8 := by
      calc 2 ^ (min (k - 1) 3) ≤ 2 ^ 3 :=
            Nat.pow_le_pow_right (by omega) (Nat.min_le_right _ _)
        _ = 8 := by norm_num
    have hm : min (2 ^ (min (k - 1) 3)) 10 = 2 ^ (min (k - 1) 3) :=
      Nat.min_eq_left (by omega)
    exact ⟨hm, by rw [backoff_wait, hm]; exact h8⟩

/-- C3: when the normalized address is not yet registered and its probe
does not return 200 (failure, timeout, or bad status), `add_peer` leaves
the registry unchanged and returns `False`, never raising; when the
normalized address is already registered, it returns `True` without
probing (the result is independent of the probe oracle) and leaves the
registry unchanged — `add_peer` is idempotent. -/
theorem add_peer_correct :
    ∀ (peers : List String) (probe probe2 : String → ProbeResult) (peer_address : String),
      (normalize_address peer_address ∉ peers →
        probe (normalize_address peer_address) ≠ ProbeResult.ok →
        add_peer peers probe peer_address = (peers, false))
      ∧ (normalize_address peer_address ∈ peers →
        add_peer peers probe peer_address = (peers, true) ∧
        add_peer peers probe peer_address = add_peer peers probe2 peer_address) := by
  intro peers probe probe2 a
  constructor
  · intro hmem hprobe
    unfold add_peer
    rw [if_neg hmem]
    cases h : probe (normalize_address a) with
    | ok => exact absurd h hprobe
    | badStatus => rfl
    | failed => rfl
  · intro hmem
    unfold add_peer
    rw [if_pos hmem, if_pos hmem]
    exact ⟨rfl, rfl⟩

/-- Witness for C3: adding `"a"` to the empty registry while every probe
fails leaves it empty and reports failure; re-adding an already-present
address succeeds without change. -/
theorem add_peer_correct_witness :
    add_peer [] (fun _ => ProbeResult.failed) "a" = ([], false) ∧
    add_peer ["http://a"] (fun _ => ProbeResult.failed) "a" = (["http://a"], true) :=
  ⟨(add_peer_correct [] (fun _ => ProbeResult.failed) (fun _ => ProbeResult.failed) "a").1
      (by decide) (by decide),
    ((add_peer_correct ["http://a"] (fun _ => ProbeResult.failed)
        (fun _ => ProbeResult.failed) "a").2 (by decide)).1⟩

theorem remove_peer_eq_erase (peers : List String) (a : String) :
    remove_peer peers a = peers.erase a := by
  unfold remove_peer
  by_cases h : a ∈ peers
  · rw [if_pos h]
  · rw [if_neg h, List.erase_of_not_mem h]

theorem broadcast_pass_dead_mem (outcome : String → SendOutcome) (p : String)
    (hfail : ∀ r, outcome p ≠ SendOutcome.ok r) :
    ∀ (iter peers : List String), p ∈ iter →
      p ∈ (broadcast_pass outcome iter peers).2.1 := by
  intro iter
  induction iter with
  | nil => intro peers h; cases h
  | cons q rest ih =>
    intro peers hmem
    rcases List.mem_cons.mp hmem with rfl | hmem'
    · cases ho : outcome p with
      | ok r => exact absurd ho (hfail r)
      | badStatus => simp [broadcast_pass, send_message, ho]
      | timeout => simp [broadcast_pass, send_message, ho]
      | netError => simp [broadcast_pass, send_message, ho]
    · cases ho : outcome q with
      | ok r => simpa [broadcast_pass, send_message, ho] using ih _ hmem'
      | badStatus =>
        simp only [broadcast_pass, send_message, ho, List.mem_cons]
        exact Or.inr (ih _ hmem')
      | timeout =>
        simp only [broadcast_pass, send_message, ho, List.mem_cons]
        exact Or.inr (ih _ hmem')
      | netError =>
        simp only [broadcast_pass, send_message, ho, List.mem_cons]
        exact Or.inr (ih _ hmem')

theorem broadcast_pass_nodup (outcome : String → SendOutcome) :
    ∀ (iter peers : List String), peers.Nodup →
      ((broadcast_pass outcome iter peers).2.2).Nodup := by
  intro iter
  induction iter with
  | nil => intro peers h; exact h
  | cons q rest ih =>
    intro peers h
    cases ho : outcome q with
    | ok r =>
      simp only [broadcast_pass, send_message, ho]
      exact ih _ h
    | badStatus =>
      simp only [broadcast_pass, send_message, ho]
      exact ih _ h
    | timeout =>
      simp only [broadcast_pass, send_message, ho, remove_peer_eq_erase]
      exact ih _ (h.erase _)
    | netError =>
      simp only [broadcast_pass, send_message, ho]
      exact ih _ h

theorem foldl_guard_remove_eq_foldl_erase :
    ∀ (dead ps : List String),
      dead.foldl (fun ps' q => if q ∈ ps' then remove_peer ps' q else ps') ps
        = dead.foldl (fun ps' q => ps'.erase q) ps := by
  intro dead
  induction dead with
  | nil => intro ps; rfl
  | cons q rest ih =>
    intro ps
    have hstep : (if q ∈ ps then remove_peer ps q else ps) = ps.erase q := by
      by_cases h : q ∈ ps
      · rw [if_pos h, remove_peer_eq_erase]
      · rw [if_neg h, List.erase_of_not_mem h]
    simp only [List.foldl_cons, hstep]
    exact ih _

theorem not_mem_foldl_erase (p : String) :
    ∀ (dead ps : List String), p ∉ ps →
      p ∉ dead.foldl (fun ps' q => ps'.erase q) ps := by
  intro dead
  induction dead with
  | nil => intro ps h; exact h
  | cons q rest ih =>
    intro ps h
    simp only [List.foldl_cons]
    exact ih _ (fun hc => h (List.mem_of_mem_erase hc))

theorem mem_dead_not_mem_foldl_erase (p : String) :
    ∀ (dead ps : List String), ps.Nodup → p ∈ dead →
      p ∉ dead.foldl (fun ps' q => ps'.erase q) ps := by
  intro dead
  induction dead with
  | nil => intro ps _ h; cases h
  | cons q rest ih =>
    intro ps hnd hmem
    simp only [List.foldl_cons]
    by_cases hpq : p = q
    · subst hpq
      apply not_mem_foldl_erase
      intro hc
      rcases (List.Nodup.mem_erase_iff hnd).mp hc with ⟨hne, _⟩
      exact hne rfl
    · rcases List.mem_cons.mp hmem with h | h
      · exact absurd h hpq
      · exact ih _ (hnd.erase _) h

/-- C4 counterexample: a single-attempt `send_message` that fails with a
non-success status (or a non-timeout network error) does **not** remove the
failing address — the registry still contains it; only the `Timeout`
branch removes. -/
theorem send_once_removal_counterexample :
    send_message ["http://a"] "http://a" SendOutcome.badStatus = (["http://a"], none) ∧
    "http://a" ∈ (send_message ["http://a"] "http://a" SendOutcome.badStatus).1 ∧
    send_message ["http://a"] "http://a" SendOutcome.netError = (["http://a"], none) := by
  decide

/-- C4 amended: `send_message` performs exactly one attempt and by itself
removes the target only on a timeout — a non-success status or another
network error returns `None` leaving the registry untouched. Along the
broadcast path, however, every registered peer whose single attempt fails
(any failure kind) has been removed from the registry by the time
`broadcast_message` returns. -/
theorem send_once_removal_amended :
    (∀ (peers : List String) (a : String),
        send_message peers a SendOutcome.timeout = (remove_peer peers a, none)
        ∧ send_message peers a SendOutcome.badStatus = (peers, none)
        ∧ send_message peers a SendOutcome.netError = (peers, none)
        ∧ ∀ r, send_message peers a (SendOutcome.ok r) = (peers, some r))
    ∧ (∀ (peers : List String) (outcome : String → SendOutcome) (p : String),
        peers.Nodup → p ∈ peers → (∀ r, outcome p ≠ SendOutcome.ok r) →
        p ∉ (broadcast_message peers outcome).1) := by
  constructor
  · intro peers a
    exact ⟨rfl, rfl, rfl, fun r => rfl⟩
  · intro peers outcome p hnd hmem hfail
    have hb : (broadcast_message peers outcome).1
        = ((broadcast_pass outcome peers peers).2.1).foldl
            (fun ps' q => if q ∈ ps' then remove_peer ps' q else ps')
            ((broadcast_pass outcome peers peers).2.2) := rfl
    rw [hb, foldl_guard_remove_eq_foldl_erase]
    exact mem_dead_not_mem_foldl_erase p _ _
      (broadcast_pass_nodup outcome peers peers hnd)
      (broadcast_pass_dead_mem outcome p hfail peers peers hmem)

/-- Witness for C4 amended: a registered peer whose broadcast attempt
returns a non-success status is gone from the registry afterwards. -/
theorem send_once_removal_amended_witness :
    "http://a" ∉ (broadcast_message ["http://a"] (fun _ => SendOutcome.badStatus)).1 :=
  send_once_removal_amended.2 ["http://a"] (fun _ => SendOutcome.badStatus) "http://a"
    (by decide) (by decide) (fun _ h => by cases h)

/-- C5 counterexample: a `collaboration_response` missing its `message_id`
is not rejected with an error — the handler acknowledges it with the
ordinary `{'status': 'received'}` HTTP 200 reply (state is unchanged, but
the explicit error response the claim requires is absent). -/
theorem handle_malformed_counterexample :
    handle_message ⟨"n1", ["http://a"], [], []⟩ (fun _ => none)
        (fun _ => SendOutcome.netError) 0
        ⟨some "n2", some "collaboration_response",
          ⟨none, none, none, none, some "x"⟩, some 3⟩
      = (⟨"n1", ["http://a"], [], []⟩, HandlerResult.resp ⟨"received", 200⟩) ∧
    HandlerResult.resp ⟨"received", 200⟩ ≠ HandlerResult.resp ⟨"error", 400⟩ := by
  decide

/-- C5 amended: a `collaboration_request` missing `message_id` or `task_id`
(absent or empty) is rejected with an explicit error response (`status
"error"`, HTTP 400) and leaves the whole node state — peer registry,
correlator table, task queue — unchanged; a `collaboration_response`
missing its `message_id` also leaves the whole state unchanged, but is
acknowledged with the ordinary `{'status': 'received'}` HTTP 200 reply
instead of an error. -/
theorem handle_malformed_amended :
    ∀ (st : NodeState) (statusProbe : String → Option (Option String))
      (pushOutcome : String → SendOutcome) (now : Nat) (msg : InboundMessage),
      (msg.msgType = some "collaboration_request" →
        (isFalsy msg.data.message_id || isFalsy msg.data.task_id) = true →
        handle_message st statusProbe pushOutcome now msg
          = (st, HandlerResult.resp ⟨"error", 400⟩))
      ∧ (msg.msgType = some "collaboration_response" →
        isFalsy msg.data.message_id = true →
        handle_message st statusProbe pushOutcome now msg
          = (st, HandlerResult.resp ⟨"received", 200⟩)) := by
  intro st statusProbe pushOutcome now msg
  constructor
  · intro hty hmal
    simp [handle_message, hty, hmal]
  · intro hty hmal
    simp [handle_message, hty, hmal]

/-- Witness for C5 amended: a `collaboration_request` with no `message_id`
is rejected with `status "error"`, HTTP 400, state unchanged. -/
theorem handle_malformed_amended_witness :
    handle_message ⟨"n1", [], [], []⟩ (fun _ => none) (fun _ => SendOutcome.netError) 0
        ⟨some "n2", some "collaboration_request",
          ⟨none, some "t", none, none, none⟩, none⟩
      = (⟨"n1", [], [], []⟩, HandlerResult.resp ⟨"error", 400⟩) :=
  (handle_malformed_amended ⟨"n1", [], [], []⟩ (fun _ => none)
      (fun _ => SendOutcome.netError) 0
      ⟨some "n2", some "collaboration_request",
        ⟨none, some "t", none, none, none⟩, none⟩).1 rfl (by decide)

/-- C6: an exception raised while processing one task is caught, logged in
the per-iteration result list, and the worker loop goes on to consume the
remaining iterations exactly as it would on its own — no single failing
task terminates the loop, wherever it sits in the event sequence. -/
theorem worker_loop_fault_isolated :
    ∀ (pre : List IterEvent) (e : String) (post : List IterEvent),
      worker_loop (pre ++ IterEvent.task (Except.error e) :: post)
        = worker_loop pre ++ Except.error e :: worker_loop post := by
  intro pre e post
  induction pre with
  | nil => rfl
  | cons ev rest ih =>
    cases ev with
    | empty => simpa [worker_loop] using ih
    | task out => simp [worker_loop, ih]

/-- C7: processing a task with `needs_collaboration = false` leaves the
node state (peer registry and correlator table included) unchanged, issues
no broadcast and no correlator wait (empty effect log), and its result is
independent of the send oracle, of the correlator observations, and of the
stored responses — such a task neither reads from nor writes to them. -/
theorem process_task_no_collab_frame :
    ∀ (st : NodeState) (outcome outcome2 : String → SendOutcome) (now : Nat)
      (polls polls2 : List (RespTable × Bool)) (finalTable finalTable2 : RespTable)
      (resp2 : RespTable) (task_data : TaskData),
      task_data.needs_collaboration = false →
      (process_task st outcome now polls finalTable task_data).1 = st
      ∧ (process_task st outcome now polls finalTable task_data).2.2 = []
      ∧ (process_task st outcome now polls finalTable task_data).2.1
          = (process_task { st with responses := resp2 } outcome2 now polls2 finalTable2
              task_data).2.1 := by
  intro st outcome outcome2 now polls polls2 finalTable finalTable2 resp2 td h
  refine ⟨?_, ?_, ?_⟩ <;> simp [process_task, h]

/-- Witness for C7: a concrete non-collaborative task leaves a concrete
state untouched. -/
theorem process_task_no_collab_frame_witness :
    (process_task ⟨"n1", ["http://a"], [("m", [])], []⟩
        (fun _ => SendOutcome.badStatus) 5 [] [] ⟨some "t9", 1, false⟩).1
      = ⟨"n1", ["http://a"], [("m", [])], []⟩ :=
  (process_task_no_collab_frame ⟨"n1", ["http://a"], [("m", [])], []⟩
      (fun _ => SendOutcome.badStatus) (fun _ => SendOutcome.timeout) 5 [] [] [] [] []
      ⟨some "t9", 1, false⟩ rfl).1

/-- C8 counterexample: with two peers registered at broadcast time of
which one fails during the broadcast, the correlator wait is issued with
`len(self.peers)` as evaluated *after* the broadcast pruned the failing
peer — expected count 1, not the 2 peers present at broadcast time. -/
theorem process_task_expected_count_counterexample :
    (process_task ⟨"n1", ["http://a", "http://b"], [], []⟩
        (fun p => if p == "http://b" then SendOutcome.ok ⟨"success", none⟩
          else SendOutcome.badStatus)
        7 [] [] ⟨some "t1", 2, true⟩).2.2
      = [Effect.broadcast ["http://a", "http://b"] "collab_t1_7",
         Effect.wait "collab_t1_7" 1 []]
    ∧ Effect.wait "collab_t1_7" 1 [] ≠ Effect.wait "collab_t1_7" 2 [] := by
  decide

/-- C8 amended: a collaborative task broadcasts a `collaboration_request`
to every peer held in the registry at broadcast time; then, only when
peers remain after the broadcast has pruned failures, it waits on the
correlator with expected count equal to the number of *remaining* peers
(smaller than the broadcast-time count whenever a send failed); when no
peer survives it does not wait at all. -/
theorem process_task_collab_amended :
    ∀ (st : NodeState) (outcome : String → SendOutcome) (now : Nat)
      (polls : List (RespTable × Bool)) (finalTable : RespTable) (task_data : TaskData),
      task_data.needs_collaboration = true →
      (process_task st outcome now polls finalTable task_data).1.peers
          = (broadcast_message st.peers outcome).1
      ∧ (process_task st outcome now polls finalTable task_data).1.responses
          = st.responses
      ∧ ((broadcast_message st.peers outcome).1 = [] →
          (process_task st outcome now polls finalTable task_data).2.2
            = [Effect.broadcast st.peers
                ("collab_" ++ task_data.task_id.getD "unknown" ++ "_" ++ toString now)])
      ∧ ((broadcast_message st.peers outcome).1 ≠ [] →
          (process_task st outcome now polls finalTable task_data).2.2
            = [Effect.broadcast st.peers
                ("collab_" ++ task_data.task_id.getD "unknown" ++ "_" ++ toString now),
               Effect.wait
                ("collab_" ++ task_data.task_id.getD "unknown" ++ "_" ++ toString now)
                (broadcast_message st.peers outcome).1.length
                (wait_for_responses polls finalTable
                  ("collab_" ++ task_data.task_id.getD "unknown" ++ "_" ++ toString now)
                  (broadcast_message st.peers outcome).1.length)]) := by
  intro st outcome now polls finalTable td h
  by_cases hb : (broadcast_message st.peers outcome).1 = []
  · have hE : (broadcast_message st.peers outcome).1.isEmpty = true := by
      rw [hb]; rfl
    refine ⟨?_, ?_, fun _ => ?_, fun hc => absurd hb hc⟩ <;>
      simp [process_task, h, hE]
  · have hE : (broadcast_message st.peers outcome).1.isEmpty = false := by
      cases hx : (broadcast_message st.peers outcome).1 with
      | nil => exact absurd hx hb
      | cons a l => rfl
    refine ⟨?_, ?_, fun hc => absurd hc hb, fun _ => ?_⟩ <;>
      simp [process_task, h, hE]

/-- Witness for C8 amended: one peer, the send succeeds, so the wait uses
expected count 1 — the number of surviving peers. -/
theorem process_task_collab_amended_witness :
    (process_task ⟨"n1", ["http://a"], [], []⟩
        (fun _ => SendOutcome.ok ⟨"success", none⟩) 3 [] []
        ⟨some "t2", 1, true⟩).2.2
      = [Effect.broadcast ["http://a"] "collab_t2_3",
         Effect.wait "collab_t2_3" 1 []] := by
  rw [(process_task_collab_amended ⟨"n1", ["http://a"], [], []⟩
      (fun _ => SendOutcome.ok ⟨"success", none⟩) 3 [] []
      ⟨some "t2", 1, true⟩ rfl).2.2.2 (by decide)]
  decide

theorem foldl_remove_eq_foldl_erase :
    ∀ (xs ps : List String),
      xs.foldl (fun l q => remove_peer l q) ps = xs.foldl (fun l q => l.erase q) ps := by
  intro xs ps
  simp only [remove_peer_eq_erase]

theorem foldl_erase_cons_of_forall_ne {a : String} :
    ∀ (xs ps : List String), (∀ x ∈ xs, x ≠ a) →
      xs.foldl (fun l q => l.erase q) (a :: ps)
        = a :: xs.foldl (fun l q => l.erase q) ps := by
  intro xs
  induction xs with
  | nil => intro ps _; rfl
  | cons x rest ih =>
    intro ps hne
    have hxa : x ≠ a := hne x (List.mem_cons_self _ _)
    have hcons : (a :: ps).erase x = a :: ps.erase x := by
      rw [List.erase_cons_tail]
      simp [hxa.symm]
    simp only [List.foldl_cons, hcons]
    exact ih _ (fun y hy => hne y (List.mem_cons_of_mem _ hy))

theorem filter_foldl_erase (P : String → Bool) :
    ∀ peers : List String,
      (peers.filter P).foldl (fun l q => l.erase q) peers
        = peers.filter (fun p => ! P p) := by
  intro peers
  induction peers with
  | nil => rfl
  | cons a rest ih =>
    by_cases hPa : P a = true
    · rw [List.filter_cons_of_pos hPa, List.filter_cons_of_neg (by simp [hPa])]
      simp only [List.foldl_cons, List.erase_cons_head]
      exact ih
    · have hPa' : P a = false := by
        cases h : P a with
        | false => rfl
        | true => exact absurd h hPa
      rw [List.filter_cons_of_neg (by simp [hPa']),
        List.filter_cons_of_pos (by simp [hPa'])]
      rw [foldl_erase_cons_of_forall_ne]
      · rw [ih]
      · intro x hx hxa
        have hPx : P x = true := (List.mem_filter.mp hx).2
        rw [hxa, hPa'] at hPx
        cases hPx

theorem handle_node_shutdown_eq_filter :
    ∀ (peers : List String) (nid : String),
      handle_node_shutdown peers nid
        = peers.filter (fun p => ! strContains p nid) := by
  intro peers nid
  unfold handle_node_shutdown
  rw [foldl_remove_eq_foldl_erase, filter_foldl_erase]

/-- C9 counterexample: the `node_shutdown` branch removes every peer whose
address *contains* the announcing node id as a substring — here one
message with `node_id = "node1"` removes two distinct peers at once, so
the registry shrinks by two, not by at most one. -/
theorem node_shutdown_counterexample :
    handle_node_shutdown ["http://node1:5000", "http://node11:5000"] "node1" = [] ∧
    (["http://node1:5000", "http://node11:5000"] : List String).length
        - (handle_node_shutdown ["http://node1:5000", "http://node11:5000"] "node1").length
      = 2 := by
  decide

/-- C9 amended: a `node_shutdown` announcing `nid` removes exactly those
peers whose address contains `nid` as a substring — possibly several;
handling the same message a second time removes nothing further
(idempotent), and the registry never grows. -/
theorem node_shutdown_amended :
    ∀ (peers : List String) (nid : String),
      handle_node_shutdown peers nid
          = peers.filter (fun p => ! strContains p nid)
      ∧ handle_node_shutdown (handle_node_shutdown peers nid) nid
          = handle_node_shutdown peers nid
      ∧ (handle_node_shutdown peers nid).length ≤ peers.length := by
  intro peers nid
  refine ⟨handle_node_shutdown_eq_filter peers nid, ?_, ?_⟩
  · rw [handle_node_shutdown_eq_filter peers nid,
      handle_node_shutdown_eq_filter (peers.filter (fun p => ! strContains p nid)) nid,
      List.filter_filter]
    simp
  · rw [handle_node_shutdown_eq_filter]
    exact List.length_filter_le _ _

/-- C10 counterexample: with one response already recorded under the id, a
call with `expected_count = 0` returns that nonempty recorded list at the
first poll — it does exit early, and does not return the empty list the
claim predicts for every `expected_count = 0` call. -/
theorem wait_zero_counterexample :
    wait_for_responses [([("m", [⟨"n2", some "d", 0⟩])], true)] [] "m" 0
      = [⟨"n2", some "d", 0⟩] ∧
    wait_for_responses [([("m", [⟨"n2", some "d", 0⟩])], true)] [] "m" 0 ≠ [] := by
  decide

/-- C10 amended: the early exit requires the id to be present in the
table, so a call for an id never recorded — for every `expected_count`,
0 included — never exits early: it runs the poll loop to its end and
returns the final read, the empty list when the id is still absent; but a
call with `expected_count = 0` for an id that **is** recorded returns the
recorded list at the first running poll, before the timeout. -/
theorem wait_never_recorded_amended :
    ∀ (polls : List (RespTable × Bool)) (finalTable tbl : RespTable)
      (message_id : String) (expected_count : Nat) (rs : List StoredResponse),
      ((∀ p ∈ polls, lookupTable p.1 message_id = none) →
        wait_for_responses polls finalTable message_id expected_count
          = (lookupTable finalTable message_id).getD [])
      ∧ ((∀ p ∈ polls, lookupTable p.1 message_id = none) →
          lookupTable finalTable message_id = none →
          wait_for_responses polls finalTable message_id expected_count = [])
      ∧ (lookupTable tbl message_id = some rs →
          wait_for_responses ((tbl, true) :: polls) finalTable message_id 0 = rs) := by
  intro polls finalTable tbl message_id expected_count rs
  have key : (∀ p ∈ polls, lookupTable p.1 message_id = none) →
      wait_for_responses polls finalTable message_id expected_count
        = (lookupTable finalTable message_id).getD [] := by
    induction polls with
    | nil => intro _; rfl
    | cons p rest ih =>
      intro habs
      obtain ⟨t, run⟩ := p
      have ht : lookupTable t message_id = none :=
        habs (t, run) (List.mem_cons_self _ _)
      cases run with
      | false => simp [wait_for_responses]
      | true =>
        have hrec := ih (fun q hq => habs q (List.mem_cons_of_mem _ hq))
        simpa [wait_for_responses, ht] using hrec
  refine ⟨key, ?_, ?_⟩
  · intro habs hfin
    rw [key habs, hfin]
    rfl
  · intro hlook
    simp [wait_for_responses, hlook]

/-- Witness for C10 amended: an id recorded nowhere yields `[]` even with
a nonzero expected count and a nonempty poll trace. -/
theorem wait_never_recorded_amended_witness :
    wait_for_responses [([("x", [⟨"n2", some "d", 0⟩])], true)] [] "m" 1 = [] :=
  (wait_never_recorded_amended [([("x", [⟨"n2", some "d", 0⟩])], true)] [] [] "m" 1 []).2.1
    (by decide) (by decide)

end CommTest
